import Mathlib

/-!
Verification of the keybase/logmux design against its implementation
(src/main.go).  Bytes are modelled as `List Nat` (byte values), Go error
values as `GoErr` (with `io.EOF` as `GoErr.eof`).  The OS/network layer
(dialing, `os.OpenFile`, `Mkfifo`) is abstracted into an `Env` record of
I/O behaviours; the buffered line source (`bufio.Reader` plus
`ReadBytes('\n')`) is modelled by `BufSource` and `readBytesNL`; the
logstash connection is modelled by `Sink`, recording the bytes accepted
so far together with the write behaviour of the underlying connection.
-/

/-- Go error values as logmux sees them: `io.EOF`, or any other error
carrying its message. -/
inductive GoErr where
  | eof
  | other (msg : String)
  deriving DecidableEq

/-- Terminal behaviour of the underlying reader once the buffered data runs
out: end of file, or a non-EOF read error. -/
inductive Tail where
  | eof
  | errAfter (msg : String)
  deriving DecidableEq

/-- Model of a buffered line source (`newBufferedReader`, src/main.go:189-191;
the buffer size only affects performance): the bytes still available, and
what the underlying reader reports after them. -/
structure BufSource where
  data : List Nat
  tail : Tail
  deriving DecidableEq

/-- Split a byte list at the first newline byte: `some (line, rest)` when a
newline occurs; the newline byte belongs to neither part. -/
def breakAtNL : List Nat → Option (List Nat × List Nat)
  | [] => none
  | b :: rest =>
    if b = 10 then some ([], rest)
    else
      match breakAtNL rest with
      | none => none
      | some (l, r) => some (b :: l, r)

/-- Model of `s.Source().ReadBytes('\n')` (src/main.go:227): the bytes up to
and including the first newline with no error, or, when the data runs out
first, whatever bytes remain together with the underlying reader's terminal
condition (`io.EOF` or another error). -/
def readBytesNL (src : BufSource) : List Nat × Option GoErr × BufSource :=
  match breakAtNL src.data with
  | some (line, rest) => (line ++ [10], none, { src with data := rest })
  | none =>
    (src.data,
     some (match src.tail with | Tail.eof => GoErr.eof | Tail.errAfter m => GoErr.other m),
     { src with data := [] })

/-- ASCII whitespace bytes, as recognised by the ASCII fast path of
`bytes.TrimSpace`. -/
def isSpaceByte (b : Nat) : Bool :=
  b = 9 || b = 10 || b = 11 || b = 12 || b = 13 || b = 32

/-- Model of `bytes.TrimSpace` (src/main.go:203): drop whitespace from both
ends.  Exact for lines whose boundary bytes are ASCII; multi-byte Unicode
space runes are not trimmed by this model. -/
def trimSpace (s : List Nat) : List Nat :=
  ((s.dropWhile isSpaceByte).reverse.dropWhile isSpaceByte).reverse

/-- `hasNonSpace` (src/main.go:193-200): true when some byte is none of
space, tab, carriage return, newline. -/
def hasNonSpace (buf : List Nat) : Bool :=
  buf.any (fun b => b != 32 && b != 9 && b != 13 && b != 10)

/-- Lower-case hexadecimal digit byte, as used by strconv. -/
def hexDigit (n : Nat) : Nat := if n < 10 then 48 + n else 87 + n

/-- Byte-level model of the escaping done by the `%q` verb
(`strconv.Quote`, used at src/main.go:210 and 212): quote and backslash
are backslash-escaped, the control characters with letter escapes get
those, other bytes outside the printable ASCII range get a two-digit hex
escape (Go prints printable multi-byte runes literally; tags are ASCII). -/
def quoteByte (b : Nat) : List Nat :=
  if b = 34 then [92, 34]
  else if b = 92 then [92, 92]
  else if b = 7 then [92, 97]
  else if b = 8 then [92, 98]
  else if b = 12 then [92, 102]
  else if b = 10 then [92, 110]
  else if b = 13 then [92, 114]
  else if b = 9 then [92, 116]
  else if b = 11 then [92, 118]
  else if 32 ≤ b ∧ b ≤ 126 then [b]
  else [92, 120, hexDigit (b / 16), hexDigit (b % 16)]

/-- `%q` of a tag: opening double quote, escaped bytes, closing double
quote. -/
def goQuote (s : List Nat) : List Nat := 34 :: s.flatMap quoteByte ++ [34]

/-- The body of `processLine` after trimming (src/main.go:204-219).  Byte 123
is the opening brace, 125 the closing brace; `[44, 34, 116, 97, 103, 34, 58]`
is the comma followed by the quoted key tag and a colon, and
`[123, 34, 116, 97, 103, 34, 58]` the same with an opening brace instead of
the comma; 10 is the trailing newline appended to every non-empty result. -/
def processTrimmed (buf tag : List Nat) : List Nat :=
  if buf.length = 0 then buf
  else if buf.getD 0 0 = 123 ∧ buf.getD (buf.length - 1) 0 = 125 then
    (if hasNonSpace ((buf.drop 1).take (buf.length - 1 - 1)) then
      buf.take (buf.length - 1) ++ [44, 34, 116, 97, 103, 34, 58] ++ goQuote tag ++ [125]
    else
      [123, 34, 116, 97, 103, 34, 58] ++ goQuote tag ++ [125]) ++ [10]
  else
    (tag ++ [58, 32] ++ buf) ++ [10]

/-- `processLine` (src/main.go:202-220): trim, then tag the line. -/
def processLine (buf tag : List Nat) : List Nat :=
  processTrimmed (trimSpace buf) tag

/-- `BaseStream` (src/main.go:59-63): tag, raw specification, optional line
source (`nil` when closed). -/
structure BaseStream where
  tag : List Nat
  raw : List Nat
  source : Option BufSource
  deriving DecidableEq

/-- The two Stream variants: `PipeStream` (src/main.go:128-131) wraps a file
descriptor, `NamedPipeStream` (src/main.go:89-92) wraps a filesystem path. -/
inductive LogStream where
  | pipe (base : BaseStream) (fd : Int)
  | namedPipe (base : BaseStream) (path : List Nat)
  deriving DecidableEq

namespace LogStream

/-- `Tag` accessor (src/main.go:83-85). -/
def Tag : LogStream → List Nat
  | pipe b _ => b.tag
  | namedPipe b _ => b.tag

/-- `Raw` accessor (src/main.go:77-79). -/
def Raw : LogStream → List Nat
  | pipe b _ => b.raw
  | namedPipe b _ => b.raw

/-- `Source` accessor (src/main.go:67-69). -/
def Source : LogStream → Option BufSource
  | pipe b _ => b.source
  | namedPipe b _ => b.source

/-- `MarkClosed` (src/main.go:72-74): clear the source reference. -/
def MarkClosed : LogStream → LogStream
  | pipe b fd => pipe { b with source := none } fd
  | namedPipe b p => namedPipe { b with source := none } p

/-- Replace the source; models the advanced `bufio.Reader` state after a
read (Go mutates the reader in place). -/
def setSource : LogStream → Option BufSource → LogStream
  | pipe b fd, o => pipe { b with source := o } fd
  | namedPipe b p, o => namedPipe { b with source := o } p

end LogStream

/-- OS environment: the behaviour of opening a named-pipe path for reading
(`os.OpenFile` wrapped by `newBufferedReader`, src/main.go:117-122). -/
structure Env where
  openFile : List Nat → Except GoErr BufSource

/-- `Preread` of both variants.  `PipeStream.Preread` (src/main.go:136-141):
`io.EOF` when the source is gone, otherwise a no-op.
`NamedPipeStream.Preread` (src/main.go:113-124): a no-op when the source is
present, otherwise reopen the path. -/
def Preread (env : Env) : LogStream → Except GoErr LogStream
  | .pipe b fd =>
    match b.source with
    | none => .error GoErr.eof
    | some _ => .ok (.pipe b fd)
  | .namedPipe b p =>
    match b.source with
    | some _ => .ok (.namedPipe b p)
    | none =>
      match env.openFile p with
      | .error e => .error e
      | .ok src => .ok (.namedPipe { b with source := some src } p)

/-- The logstash sink (`LogstashService`, src/main.go:21-25): the bytes
successfully written to the connection so far, and the behaviour of the
underlying `net.Conn` write on a given buffer (`none` means success). -/
structure Sink where
  written : List Nat
  behavior : List Nat → Option GoErr

/-- Model of `l.sink.Write(buf)` (src/main.go:231): on success the bytes are
appended to the wire, on failure nothing is recorded. -/
def sinkWrite (l : Sink) (buf : List Nat) : Option GoErr × Sink :=
  match l.behavior buf with
  | none => (none, { l with written := l.written ++ buf })
  | some e => (some e, l)

/-- The outcome checks at the end of `readOne` (src/main.go:233-243), in
source order: `io.EOF` from the read wins and is recoverable (`ok`), then
any other read error, then the recorded write error. -/
def readOneOutcome : Option GoErr → Option GoErr → Except GoErr Unit
  | some GoErr.eof, _ => Except.ok ()
  | some e, _ => Except.error e
  | none, some e => Except.error e
  | none, none => Except.ok ()

/-- One iteration of the runner loop, `readOne` (src/main.go:222-244):
`Preread`; on failure return that error.  Otherwise read one line; if any
bytes came back, tag them and write them to the sink.  On read EOF mark the
stream closed and report success; otherwise a read error, then a write
error, is the outcome.  The nil-source case after a successful `Preread`
cannot occur (Go would dereference nil there); it maps to a distinguished
error. -/
def readOne (env : Env) (s : LogStream) (l : Sink) :
    Except GoErr Unit × LogStream × Sink :=
  match Preread env s with
  | .error e => (.error e, s, l)
  | .ok s1 =>
    match s1.Source with
    | none => (.error (GoErr.other "nil source"), s1, l)
    | some src =>
      let res := readBytesNL src
      let s2 := s1.setSource (some res.2.2)
      let wres :=
        if 0 < res.1.length then sinkWrite l (processLine res.1 s2.Tag)
        else ((none : Option GoErr), l)
      (readOneOutcome res.2.1 wres.1,
       if res.2.1 = some GoErr.eof then s2.MarkClosed else s2,
       wres.2)

/-- Model of `strconv.ParseInt(s, 10, 64)` (src/main.go:301): an optional
sign followed by at least one decimal digit, with the value required to fit
in a signed 64-bit integer. -/
def parseInt64 (s : List Nat) : Option Int :=
  match s with
  | [] => none
  | c :: rest =>
    let neg : Bool := c == 45
    let ds := if c == 45 || c == 43 then rest else s
    if ds = [] then none
    else if ds.all (fun d => decide (48 ≤ d ∧ d ≤ 57)) then
      let n : Nat := ds.foldl (fun a d => a * 10 + (d - 48)) 0
      let v : Int := if neg then -(n : Int) else (n : Int)
      if -(2 ^ 63) ≤ v ∧ v ≤ 2 ^ 63 - 1 then some v else none
    else none

/-- Model of `strings.Split` with a one-byte separator (src/main.go:296):
n separators yield n+1 parts. -/
def splitByte (sep : Nat) : List Nat → List (List Nat)
  | [] => [[]]
  | b :: rest =>
    match splitByte sep rest with
    | [] => [[]]
    | h :: t => if b = sep then [] :: h :: t else (b :: h) :: t

/-- `parseStreamArg` (src/main.go:295-308): exactly two colon-separated
parts; an integer first part gives a `PipeStream` with that descriptor,
any other first part gives a `NamedPipeStream` with that path; the second
part is the tag in both cases. -/
def parseStreamArg (raw : List Nat) : Except String LogStream :=
  match splitByte 58 raw with
  | [spec, tag] =>
    match parseInt64 spec with
    | some fd => .ok (.pipe { tag := tag, raw := raw, source := none } fd)
    | none => .ok (.namedPipe { tag := tag, raw := raw, source := none } spec)
  | _ => .error "Specified stream has wrong number of components"

/-- `Mux` (src/main.go:169-172): the logstash sink plus the configured
streams. -/
structure Mux where
  logstash : Sink
  streams : List LogStream

/-- The launch phase of `Mux.Run` (src/main.go:271-277): the aggregation
channel capacity, the number of launched runners, and the single-stream
flag that suppresses per-runner diagnostics. -/
structure RunSetup where
  chanCap : Nat
  launched : Nat
  single : Bool

/-- `Mux.Run` creates the channel with the constant capacity 10
(src/main.go:271), counts one launched runner per stream
(src/main.go:274-277), and computes the single-stream flag
(src/main.go:273). -/
def mkRunSetup (m : Mux) : RunSetup :=
  { chanCap := 10, launched := m.streams.length, single := m.streams.length == 1 }

/-- The aggregation loop of `Mux.Run` (src/main.go:278-287) as a function of
the count of still-running streams and the outcomes in channel-delivery
order: `some none` means Run returns nil, `some (some e)` means Run returns
the error e, `none` means the loop is still blocked on the channel. -/
def aggregateOutcomes : Nat → List GoErr → Option (Option GoErr)
  | _, [] => none
  | n, e :: rest =>
    if e ≠ GoErr.eof then some (some e)
    else if n - 1 = 0 then some none
    else aggregateOutcomes (n - 1) rest

/-- `Mux.Run` after successful configuration: aggregate the runner outcomes
starting from the stream count. -/
def muxRunOutcome (m : Mux) (outs : List GoErr) : Option (Option GoErr) :=
  aggregateOutcomes m.streams.length outs

-- Concrete values used by witnesses and counterexamples.

/-- Environment whose named-pipe opens fail; irrelevant to descriptor
streams. -/
def env0 : Env := { openFile := fun _ => Except.error (GoErr.other "no open") }

/-- A sink whose underlying connection fails every write. -/
def failSink : Sink := { written := [], behavior := fun _ => some (GoErr.other "write failed") }

/-- A sink whose underlying connection accepts every write. -/
def okSink : Sink := { written := [72], behavior := fun _ => none }

/-- A source holding one byte and then EOF: the read returns that byte
together with the EOF signal. -/
def srcA : BufSource := { data := [65], tail := Tail.eof }

/-- A descriptor stream over `srcA`. -/
def sA : LogStream := LogStream.pipe { tag := [97], raw := [97], source := some srcA } 3

/-- A source holding a whitespace-only line (one space, one newline). -/
def srcWS : BufSource := { data := [32, 10], tail := Tail.eof }

/-- A descriptor stream over `srcWS`. -/
def sWS : LogStream := LogStream.pipe { tag := [97], raw := [97], source := some srcWS } 4

/-- A descriptor stream that has already been marked closed. -/
def closedPipe : LogStream := LogStream.pipe { tag := [98], raw := [98], source := none } 5

/-- A Mux with a single descriptor stream. -/
def mux1 : Mux :=
  { logstash := { written := [], behavior := fun _ => none },
    streams := [LogStream.pipe { tag := [97], raw := [97], source := none } 0] }

/-- A Mux with eleven descriptor streams. -/
def mux11 : Mux :=
  { logstash := { written := [], behavior := fun _ => none },
    streams := List.replicate 11 (LogStream.pipe { tag := [], raw := [], source := none } 0) }

-- Helper lemmas about the accessors.

theorem Tag_setSource (s : LogStream) (o : Option BufSource) :
    (s.setSource o).Tag = s.Tag := by
  cases s <;> rfl

theorem Source_MarkClosed (s : LogStream) : s.MarkClosed.Source = none := by
  cases s <;> rfl

theorem Source_setSource (s : LogStream) (o : Option BufSource) :
    (s.setSource o).Source = o := by
  cases s <;> rfl

-- C7 --------------------------------------------------------------------

/-- C7: a descriptor stream whose source has been cleared is permanently
closed: `MarkClosed` clears the source, `Preread` on the closed stream
immediately signals `io.EOF` (no reopen is attempted, `env` is arbitrary),
and `readOne` reports that same EOF while leaving the stream and the sink
untouched, so the stream never produces another line. -/
theorem pipe_closed_permanent (env : Env) (l : Sink) (t r : List Nat)
    (so : Option BufSource) (fd : Int) :
    (LogStream.pipe ⟨t, r, so⟩ fd).MarkClosed = LogStream.pipe ⟨t, r, none⟩ fd ∧
    Preread env (LogStream.pipe ⟨t, r, none⟩ fd) = Except.error GoErr.eof ∧
    readOne env (LogStream.pipe ⟨t, r, none⟩ fd) l =
      (Except.error GoErr.eof, LogStream.pipe ⟨t, r, none⟩ fd, l) :=
  ⟨rfl, rfl, rfl⟩

-- C9 --------------------------------------------------------------------

/-- C9: when `Preread` fails, `readOne` returns that same error with the
stream and the sink completely untouched: no read from the source, no write
to the sink, and the tag, raw specification and source fields unchanged. -/
theorem readOne_preread_error (env : Env) (s : LogStream) (l : Sink) (e : GoErr)
    (hp : Preread env s = Except.error e) :
    readOne env s l = (Except.error e, s, l) := by
  simp [readOne, hp]

/-- Witness for C9 at a closed descriptor stream, whose `Preread` fails with
`io.EOF`. -/
theorem readOne_preread_error_witness :
    readOne env0 closedPipe okSink = (Except.error GoErr.eof, closedPipe, okSink) :=
  readOne_preread_error env0 closedPipe okSink GoErr.eof rfl

-- C10 -------------------------------------------------------------------

/-- C10: `parseStreamArg` validates only the part count.  The spec ":tag"
(bytes `[58, 116, 97, 103]`) yields a named-pipe stream with the empty
path; "5:" yields a descriptor stream with the empty tag; "-3:tag" yields
a descriptor stream with the negative descriptor -3. -/
theorem parseStreamArg_degenerate :
    parseStreamArg [58, 116, 97, 103] =
      Except.ok (LogStream.namedPipe ⟨[116, 97, 103], [58, 116, 97, 103], none⟩ []) ∧
    parseStreamArg [53, 58] = Except.ok (LogStream.pipe ⟨[], [53, 58], none⟩ 5) ∧
    parseStreamArg [45, 51, 58, 116, 97, 103] =
      Except.ok (LogStream.pipe ⟨[116, 97, 103], [45, 51, 58, 116, 97, 103], none⟩ (-3)) :=
  ⟨rfl, rfl, rfl⟩

-- C3 --------------------------------------------------------------------

/-- C3 counterexample: `Mux.Run` creates the aggregation channel with the
constant capacity 10 (src/main.go:271), so with eleven configured streams
the capacity is smaller than the number of streams, refuting the claim
that the capacity is always at least the number of streams. -/
theorem mux_chan_cap_cex :
    ¬ (mkRunSetup mux11).launched ≤ (mkRunSetup mux11).chanCap := by decide

/-- C3 amended: the aggregation channel capacity is the constant 10, so
every runner can report its outcome without blocking exactly in the runs
with at most ten configured streams. -/
theorem mux_chan_cap_bounded (m : Mux) (h : m.streams.length ≤ 10) :
    (mkRunSetup m).launched ≤ (mkRunSetup m).chanCap := h

/-- Witness for the amended C3 at a single-stream Mux. -/
theorem mux_chan_cap_bounded_witness :
    (mkRunSetup mux1).launched ≤ (mkRunSetup mux1).chanCap :=
  mux_chan_cap_bounded mux1 (by decide)

-- C1 --------------------------------------------------------------------

/-- C1 counterexample: on stream `sA` the read returns the byte 65 together
with the EOF signal on the same call, and the sink write of the tagged
bytes fails, yet `readOne` reports the recoverable end (`ok`), not the
write failure: the EOF check at src/main.go:233 returns before the write
error is consulted. -/
theorem readOne_eof_write_fail_cex :
    (readBytesNL srcA).1 = [65] ∧
    (readBytesNL srcA).2.1 = some GoErr.eof ∧
    (sinkWrite failSink (processLine (readBytesNL srcA).1 sA.Tag)).1 =
      some (GoErr.other "write failed") ∧
    (readOne env0 sA failSink).1 = Except.ok () ∧
    (readOne env0 sA failSink).1 ≠ Except.error (GoErr.other "write failed") := by
  refine ⟨rfl, rfl, rfl, rfl, ?_⟩
  intro hcon
  have hok : (readOne env0 sA failSink).1 = Except.ok () := rfl
  rw [hok] at hcon
  exact Except.noConfusion hcon

/-- C1 amended: in an iteration where the read returns bytes and signals
end-of-stream on the same call and the sink write of the tagged bytes
fails, `readOne` reports the recoverable end (`ok`) and marks the stream
closed; the write error is discarded (the EOF check precedes both error
checks), while the sink keeps the state left by the attempted write. -/
theorem readOne_eof_discards_write_error (env : Env) (s s1 : LogStream) (l : Sink)
    (src : BufSource) (werr : GoErr)
    (hp : Preread env s = Except.ok s1)
    (hs : s1.Source = some src)
    (heof : (readBytesNL src).2.1 = some GoErr.eof)
    (hbytes : 0 < (readBytesNL src).1.length)
    (hfail : (sinkWrite l (processLine (readBytesNL src).1 s1.Tag)).1 = some werr) :
    (readOne env s l).1 = Except.ok () ∧
    (readOne env s l).2.1.Source = none ∧
    (readOne env s l).2.2 = (sinkWrite l (processLine (readBytesNL src).1 s1.Tag)).2 := by
  simp [readOne, hp, hs, heof, hbytes, readOneOutcome, Tag_setSource, Source_MarkClosed]

/-- Witness for the amended C1 at stream `sA` and the failing sink. -/
theorem readOne_eof_discards_write_error_witness :
    (readOne env0 sA failSink).1 = Except.ok () ∧
    (readOne env0 sA failSink).2.1.Source = none ∧
    (readOne env0 sA failSink).2.2 =
      (sinkWrite failSink (processLine (readBytesNL srcA).1 sA.Tag)).2 :=
  readOne_eof_discards_write_error env0 sA sA failSink srcA
    (GoErr.other "write failed") rfl rfl rfl (by decide) rfl

-- Helper lemmas for the tagging proofs.

theorem getD_append_singleton (l : List Nat) (y d : Nat) :
    (l ++ [y]).getD l.length d = y := by
  induction l with
  | nil => rfl
  | cons a t ih => simpa using ih

theorem take_append_singleton (l : List Nat) (y : Nat) :
    (l ++ [y]).take l.length = l := by
  induction l with
  | nil => rfl
  | cons a t ih => simpa using ih

/-- `processTrimmed` on a brace-delimited value, by the two interior cases
of src/main.go:208-213. -/
theorem processTrimmed_obj (interior tag : List Nat) :
    processTrimmed (123 :: interior ++ [125]) tag =
      if hasNonSpace interior then
        123 :: interior ++ [44, 34, 116, 97, 103, 34, 58] ++ goQuote tag ++ [125, 10]
      else [123, 34, 116, 97, 103, 34, 58] ++ goQuote tag ++ [125, 10] := by
  have hlen : (123 :: interior ++ [125]).length = interior.length + 2 := by simp
  have hsub : (123 :: interior ++ [125]).length - 1 = interior.length + 1 := by
    rw [hlen]
    omega
  have hget : (123 :: interior ++ [125]).getD ((123 :: interior ++ [125]).length - 1) 0 = 125 := by
    rw [hsub]
    simpa using getD_append_singleton interior 125 0
  have hdrop : ((123 :: interior ++ [125]).drop 1).take
      ((123 :: interior ++ [125]).length - 1 - 1) = interior := by
    rw [hsub]
    simpa using take_append_singleton interior 125
  have htake : (123 :: interior ++ [125]).take ((123 :: interior ++ [125]).length - 1) =
      123 :: interior := by
    rw [hsub]
    simpa using take_append_singleton interior 125
  rw [processTrimmed, if_neg (by rw [hlen]; omega), if_pos ⟨rfl, hget⟩, hdrop, htake]
  by_cases hns : hasNonSpace interior <;> simp [hns]

-- C4 --------------------------------------------------------------------

/-- C4: for a line whose trimmed content is an opening brace, an interior
with at least one non-whitespace byte, and a closing brace, `processLine`
returns the trimmed content with the `,"tag":"<tag>"` member (tag rendered
by `%q`) spliced immediately before the closing brace, every interior byte
preserved unchanged, followed by exactly one trailing newline. -/
theorem processLine_splices_tag (buf tag interior : List Nat)
    (h : trimSpace buf = 123 :: interior ++ [125])
    (hns : hasNonSpace interior = true) :
    processLine buf tag =
      123 :: interior ++ [44, 34, 116, 97, 103, 34, 58] ++ goQuote tag ++ [125, 10] := by
  rw [processLine, h, processTrimmed_obj, if_pos hns]

/-- Witness for C4 on the line with trimmed bytes of the object holding one
member (the bytes spell a quoted key, a colon and a digit) and a one-byte
tag. -/
theorem processLine_splices_tag_witness :
    trimSpace [123, 34, 97, 34, 58, 49, 125, 10] = 123 :: [34, 97, 34, 58, 49] ++ [125] ∧
    hasNonSpace [34, 97, 34, 58, 49] = true ∧
    processLine [123, 34, 97, 34, 58, 49, 125, 10] [116] =
      123 :: [34, 97, 34, 58, 49] ++ [44, 34, 116, 97, 103, 34, 58] ++ goQuote [116] ++ [125, 10] :=
  ⟨by decide, by decide,
    processLine_splices_tag [123, 34, 97, 34, 58, 49, 125, 10] [116] [34, 97, 34, 58, 49]
      (by decide) (by decide)⟩

-- C5 --------------------------------------------------------------------

/-- C5: for a line whose trimmed content is an opening brace, a whitespace
only (possibly empty) interior, and a closing brace, `processLine` returns
exactly the object holding the single tag member (tag rendered by `%q`)
followed by a single newline. -/
theorem processLine_empty_object (buf tag interior : List Nat)
    (h : trimSpace buf = 123 :: interior ++ [125])
    (hns : hasNonSpace interior = false) :
    processLine buf tag = [123, 34, 116, 97, 103, 34, 58] ++ goQuote tag ++ [125, 10] := by
  rw [processLine, h, processTrimmed_obj, if_neg (by simp [hns])]

/-- Witness for C5 on the line of a space, a brace pair around a space, a
newline, with a one-byte tag. -/
theorem processLine_empty_object_witness :
    trimSpace [32, 123, 32, 125, 10] = 123 :: [32] ++ [125] ∧
    hasNonSpace [32] = false ∧
    processLine [32, 123, 32, 125, 10] [116] =
      [123, 34, 116, 97, 103, 34, 58] ++ goQuote [116] ++ [125, 10] :=
  ⟨by decide, by decide,
    processLine_empty_object [32, 123, 32, 125, 10] [116] [32] (by decide) (by decide)⟩

-- C6 --------------------------------------------------------------------

/-- C6 counterexample: the whitespace-only line of stream `sWS` tags to the
empty output, yet `readOne` still performs the sink write call (the guard
at src/main.go:229 tests the raw read bytes, not the tagged output): with
a sink whose writes fail, the iteration outcome is that write error, which
could not happen if the write were skipped. -/
theorem empty_line_write_cex :
    trimSpace (readBytesNL srcWS).1 = [] ∧
    processLine (readBytesNL srcWS).1 sWS.Tag = [] ∧
    (readOne env0 sWS failSink).1 = Except.error (GoErr.other "write failed") :=
  ⟨rfl, rfl, rfl⟩

/-- C6 amended: a line that trims to empty produces the empty tagged result
and no bytes are ever appended to the sink for it; however, whenever the
raw read returned at least one byte, the runner still invokes the sink
write with the empty buffer rather than skipping it (only a zero-byte raw
read skips the write call). -/
theorem empty_line_no_bytes_written (env : Env) (s s1 : LogStream) (l : Sink)
    (src : BufSource)
    (hp : Preread env s = Except.ok s1)
    (hs : s1.Source = some src)
    (hne : (readBytesNL src).1 ≠ [])
    (htrim : trimSpace (readBytesNL src).1 = []) :
    processLine (readBytesNL src).1 s1.Tag = [] ∧
    (readOne env s l).2.2 = (sinkWrite l []).2 ∧
    (readOne env s l).2.2.written = l.written := by
  have hemp : ∀ tg, processLine (readBytesNL src).1 tg = [] := by
    intro tg
    rw [processLine, htrim]
    rfl
  have hpos : 0 < (readBytesNL src).1.length := List.length_pos.mpr hne
  have hsink : (readOne env s l).2.2 = (sinkWrite l []).2 := by
    simp [readOne, hp, hs, hpos, hemp]
  refine ⟨hemp _, hsink, ?_⟩
  rw [hsink, sinkWrite]
  cases hb : l.behavior [] <;> simp

/-- Witness for the amended C6 at stream `sWS` and the accepting sink. -/
theorem empty_line_no_bytes_written_witness :
    processLine (readBytesNL srcWS).1 sWS.Tag = [] ∧
    (readOne env0 sWS okSink).2.2 = (sinkWrite okSink []).2 ∧
    (readOne env0 sWS okSink).2.2.written = okSink.written :=
  empty_line_no_bytes_written env0 sWS sWS okSink srcWS rfl rfl (by decide) rfl

-- Helper lemmas for the aggregation proofs.

theorem aggregate_cons (x : GoErr) (t : List GoErr) :
    aggregateOutcomes (x :: t).length (x :: t) =
      if x = GoErr.eof then
        (if t = [] then some none else aggregateOutcomes t.length t)
      else some (some x) := by
  by_cases hx : x = GoErr.eof <;> by_cases ht : t = [] <;>
    simp [aggregateOutcomes, hx, ht, List.length_eq_zero]

theorem aggregate_all_eof (outs : List GoErr) (hne : outs ≠ []) :
    (aggregateOutcomes outs.length outs = some none ↔ ∀ e ∈ outs, e = GoErr.eof) := by
  induction outs with
  | nil => exact absurd rfl hne
  | cons x t ih =>
    rw [aggregate_cons]
    by_cases hx : x = GoErr.eof
    · subst hx
      cases t with
      | nil => simp
      | cons y u =>
        rw [if_pos rfl, if_neg (by simp), ih (by simp)]
        constructor
        · intro hall e he
          rcases List.mem_cons.mp he with rfl | hm
          · rfl
          · exact hall e hm
        · intro hall e he
          exact hall e (List.mem_cons_of_mem _ he)
    · rw [if_neg hx]
      constructor
      · intro hcon
        simp at hcon
      · intro hall
        exact absurd (hall x (List.mem_cons_self x t)) hx

theorem aggregate_first_error (pre : List GoErr) (e : GoErr) (rest : List GoErr)
    (hpre : ∀ x ∈ pre, x = GoErr.eof) (he : e ≠ GoErr.eof) :
    aggregateOutcomes (pre ++ e :: rest).length (pre ++ e :: rest) = some (some e) := by
  induction pre with
  | nil => simp [aggregateOutcomes, he]
  | cons x p ih =>
    have hx : x = GoErr.eof := hpre x (by simp)
    subst hx
    have hlen : (p ++ e :: rest).length ≠ 0 := by simp
    simp only [List.cons_append, aggregateOutcomes, List.length_cons, Nat.add_sub_cancel,
      ne_eq, not_true_eq_false, if_false, if_neg hlen]
    exact ih fun y hy => hpre y (by simp [hy])

-- C2 --------------------------------------------------------------------

/-- C2: over the outcomes delivered on the aggregation channel, one per
launched runner (so their number equals the stream count), `Mux.Run`
returns normally exactly when every runner outcome is the recoverable
`io.EOF` (the running count then reaches zero on the last one), and if the
delivery order has a first non-EOF error after a prefix of EOFs, Run
returns exactly that error, independent of every outcome after it, hence
without waiting for the remaining runners. -/
theorem mux_run_aggregation (m : Mux) (outs : List GoErr)
    (hlen : outs.length = m.streams.length) (hne : outs ≠ []) :
    (muxRunOutcome m outs = some none ↔ ∀ e ∈ outs, e = GoErr.eof) ∧
    (∀ pre e rest, outs = pre ++ e :: rest → (∀ x ∈ pre, x = GoErr.eof) →
      e ≠ GoErr.eof → muxRunOutcome m outs = some (some e)) := by
  constructor
  · rw [muxRunOutcome, ← hlen]
    exact aggregate_all_eof outs hne
  · intro pre e rest hsplit hpre he
    rw [muxRunOutcome, ← hlen, hsplit]
    exact aggregate_first_error pre e rest hpre he

/-- Witness for C2: the single-stream Mux with the one runner reporting
EOF succeeds. -/
theorem mux_run_aggregation_witness :
    muxRunOutcome mux1 [GoErr.eof] = some none :=
  (mux_run_aggregation mux1 [GoErr.eof] rfl (by simp)).1.mpr (by simp)

-- C8 --------------------------------------------------------------------

/-- C8: a stream specification parses successfully exactly when splitting it
on the colon byte yields two parts; with two parts, a first part that
parses as a base-10 integer yields a descriptor stream with that
descriptor number and the second part as tag, and any other first part
yields a named-pipe stream with the first part as path and the second
part as tag; any other part count is a configuration error. -/
theorem parseStreamArg_spec (raw : List Nat) :
    ((∃ s, parseStreamArg raw = Except.ok s) ↔ (splitByte 58 raw).length = 2) ∧
    (∀ spec tag, splitByte 58 raw = [spec, tag] →
      (∀ fd, parseInt64 spec = some fd →
        parseStreamArg raw = Except.ok (LogStream.pipe ⟨tag, raw, none⟩ fd)) ∧
      (parseInt64 spec = none →
        parseStreamArg raw = Except.ok (LogStream.namedPipe ⟨tag, raw, none⟩ spec))) := by
  rcases h : splitByte 58 raw with _ | ⟨a, _ | ⟨b, _ | ⟨c, t⟩⟩⟩
  · have herr : parseStreamArg raw =
        Except.error "Specified stream has wrong number of components" := by
      unfold parseStreamArg
      rw [h]
    refine ⟨⟨?_, ?_⟩, ?_⟩
    · rintro ⟨s, hs⟩
      rw [herr] at hs
      cases hs
    · intro h2
      simp at h2
    · intro spec tag htwo
      simp at htwo
  · have herr : parseStreamArg raw =
        Except.error "Specified stream has wrong number of components" := by
      unfold parseStreamArg
      rw [h]
    refine ⟨⟨?_, ?_⟩, ?_⟩
    · rintro ⟨s, hs⟩
      rw [herr] at hs
      cases hs
    · intro h2
      simp at h2
    · intro spec tag htwo
      simp at htwo
  · have hred : parseStreamArg raw =
        (match parseInt64 a with
          | some fd => Except.ok (LogStream.pipe ⟨b, raw, none⟩ fd)
          | none => Except.ok (LogStream.namedPipe ⟨b, raw, none⟩ a)) := by
      unfold parseStreamArg
      rw [h]
    refine ⟨⟨fun _ => rfl, fun _ => ?_⟩, ?_⟩
    · cases hp : parseInt64 a with
      | some fd =>
        rw [hp] at hred
        exact ⟨_, hred⟩
      | none =>
        rw [hp] at hred
        exact ⟨_, hred⟩
    · intro spec tag htwo
      obtain ⟨rfl, rfl⟩ : a = spec ∧ b = tag := by simpa using htwo
      constructor
      · intro fd hfd
        rw [hfd] at hred
        exact hred
      · intro hn
        rw [hn] at hred
        exact hred
  · have herr : parseStreamArg raw =
        Except.error "Specified stream has wrong number of components" := by
      unfold parseStreamArg
      rw [h]
    refine ⟨⟨?_, ?_⟩, ?_⟩
    · rintro ⟨s, hs⟩
      rw [herr] at hs
      cases hs
    · intro h2
      simp only [List.length_cons] at h2
      omega
    · intro spec tag htwo
      simp at htwo

/-- Witness for C8: the spec "7:launch.log" (bytes) parses to the
descriptor stream with descriptor 7 and tag "launch.log". -/
theorem parseStreamArg_spec_witness :
    parseStreamArg [55, 58, 108, 97, 117, 110, 99, 104, 46, 108, 111, 103] =
      Except.ok (LogStream.pipe
        ⟨[108, 97, 117, 110, 99, 104, 46, 108, 111, 103],
         [55, 58, 108, 97, 117, 110, 99, 104, 46, 108, 111, 103], none⟩ 7) :=
  ((parseStreamArg_spec [55, 58, 108, 97, 117, 110, 99, 104, 46, 108, 111, 103]).2
    [55] [108, 97, 117, 110, 99, 104, 46, 108, 111, 103] (by decide)).1 7 (by decide)
